import Mathlib

/-!
Verification of the uptime-monitor health-check engine (monitor core).

Shallow embedding of the Go source: the pure classification and policy
functions are translated directly; the effectful check loop is modelled by
explicit environments describing the outcome of each probe attempt, and the
concurrent orchestrator by an explicit completion-order / semaphore-trace
semantics.  Go `int`/`int64` values are modelled by `Int` (no overflow occurs
in the quantities involved), `time.Duration` by integer nanoseconds, and
`float64` aggregate arithmetic by exact rationals.
-/

namespace Monitor

/-- Status constants from the source. -/
def StatusUp : String := "up"

def StatusDown : String := "down"

def StatusDegraded : String := "degraded"

/-- Accept threshold in milliseconds (source constant `ThresholdAccept`). -/
def ThresholdAccept : Int := 3000

/-- Default concurrency ceiling (source constant `DefaultConcurrent`). -/
def DefaultConcurrent : Nat := 5

/-- Maximum number of retries (source constant `MaxRetries`). -/
def MaxRetries : Nat := 3

/-- Initial backoff, 1 s in nanoseconds (source constant `InitialBackoff`). -/
def InitialBackoff : Nat := 1000000000

/-- Maximum backoff, 30 s in nanoseconds (source constant `MaxBackoff`). -/
def MaxBackoff : Nat := 30000000000

/-- Backoff multiplier (source constant `BackoffMultiplier = 2.0`). -/
def BackoffMultiplier : ℚ := 2

/-- One probe outcome, mirroring the Go struct `HealthCheckResult`.
Time stamps are opaque integers, `CheckedAt` an opaque formatted string. -/
structure HealthCheckResult where
  Domain : String := ""
  URL : String := ""
  Status : String := ""
  StatusCode : Int := 0
  ResponseTime : Int := 0
  IsSSL : Bool := false
  SSLExpiry : String := ""
  SSLDaysLeft : Int := 0
  ErrorMessage : String := ""
  ContentLength : Int := 0
  Timestamp : Int := 0
  CheckedAt : String := ""
deriving Repr, DecidableEq

/-- Aggregate report, mirroring the Go struct `MonitorReport`.  The two
`float64` fields are modelled by exact rationals. -/
structure MonitorReport where
  Service : String
  Environment : String
  TotalChecks : Nat
  Uptime : Nat
  Downtime : Nat
  Degraded : Nat
  UptimePercent : ℚ
  AverageLatency : ℚ
  Timestamp : Int
  Results : List HealthCheckResult
deriving Repr, DecidableEq

/-- `determineStatus` from the source: classify a probe by HTTP status code
and response time (milliseconds). -/
def determineStatus (statusCode : Int) (responseTime : Int) : String :=
  if 200 ≤ statusCode ∧ statusCode < 300 then
    if ThresholdAccept ≤ responseTime then StatusDegraded else StatusUp
  else if 300 ≤ statusCode ∧ statusCode < 400 then StatusUp
  else if 400 ≤ statusCode ∧ statusCode < 500 then StatusDegraded
  else StatusDown

/-- Helper for `goContains`: does the first character list start the second. -/
def charsMatchFront : List Char → List Char → Bool
  | [], _ => true
  | _ :: _, [] => false
  | a :: as, b :: bs => a == b && charsMatchFront as bs

/-- Helper for `goContains`: does `sub` occur inside the second list. -/
def charsContain (sub : List Char) : List Char → Bool
  | [] => charsMatchFront sub []
  | c :: rest => charsMatchFront sub (c :: rest) || charsContain sub rest

/-- Shallow embedding of Go `strings.Contains s sub`. -/
def goContains (s sub : String) : Bool :=
  charsContain sub.toList s.toList

/-- `IsRetryableError` from the source.  A Go `error` is modelled by
`Option String` carrying the message text (`nil` = `none`). -/
def IsRetryableError (err : Option String) (statusCode : Int) : Bool :=
  match err with
  | some msg =>
    if goContains msg "marshal" || goContains msg "invalid" ||
        goContains msg "context cancelled" then
      false
    else
      true
  | none =>
    -- switch statusCode: 429, 500, 502, 503, 504 retry; default no
    if statusCode = 429 ∨ statusCode = 500 ∨ statusCode = 502 ∨
        statusCode = 503 ∨ statusCode = 504 then
      true
    else
      false

/-- Retry configuration, mirroring the Go struct `RetryConfig`.  Durations
are integer nanoseconds; the multiplier is an exact rational. -/
structure RetryConfig where
  MaxRetries : Nat
  InitialBackoff : Nat
  MaxBackoff : Nat
  BackoffMultiplier : ℚ
deriving Repr, DecidableEq

/-- `DefaultRetryConfig` from the source. -/
def DefaultRetryConfig : RetryConfig :=
  { MaxRetries := MaxRetries
    InitialBackoff := InitialBackoff
    MaxBackoff := MaxBackoff
    BackoffMultiplier := BackoffMultiplier }

/-- `CalculateBackoff` from the source.  The Go code computes
`float64(InitialBackoff) * Pow(multiplier, attempt)` and converts back to
`time.Duration` (truncation toward zero, here `Int.floor` of a nonnegative
value).  For the configurations involved (initial 10^9 ns, multiplier 2) the
`float64` arithmetic is exact, so exact rational arithmetic models it. -/
def RetryConfig.CalculateBackoff (rc : RetryConfig) (attempt : Nat) : Int :=
  let backoff : ℚ := (rc.InitialBackoff : ℚ) * rc.BackoffMultiplier ^ attempt
  if (rc.MaxBackoff : ℚ) < backoff then (rc.MaxBackoff : Int)
  else ⌊backoff⌋

/-- Running totals of the aggregation loop inside `generateReport`. -/
structure ReportTotals where
  totalLatency : Int
  upCount : Nat
  downCount : Nat
  degradedCount : Nat
deriving Repr, DecidableEq

/-- The aggregation loop of `generateReport`: sum latencies and count the
three statuses (the Go `switch` cases are mutually exclusive string
comparisons).  The loop accumulates left to right; the recursion below adds
the head contribution to the totals of the tail, which yields the same sums
and counts. -/
def reportTotals : List HealthCheckResult → ReportTotals
  | [] => { totalLatency := 0, upCount := 0, downCount := 0, degradedCount := 0 }
  | r :: rest =>
    let t := reportTotals rest
    { totalLatency := t.totalLatency + r.ResponseTime
      upCount := if r.Status == StatusUp then t.upCount + 1 else t.upCount
      downCount := if r.Status == StatusDown then t.downCount + 1 else t.downCount
      degradedCount :=
        if r.Status == StatusDegraded then t.degradedCount + 1 else t.degradedCount }

/-- `generateReport` from the source.  `environment` stands for
`m.config.Environment` and `now` for `time.Now().UTC()`. -/
def generateReport (environment : String) (now : Int)
    (results : List HealthCheckResult) : MonitorReport :=
  let t := reportTotals results
  let avgLatency : ℚ :=
    if 0 < results.length then (t.totalLatency : ℚ) / (results.length : ℚ) else 0
  let uptimePercent : ℚ :=
    if 0 < results.length then (t.upCount : ℚ) / (results.length : ℚ) * 100 else 0
  { Service := "Uptime Monitor"
    Environment := environment
    TotalChecks := results.length
    Uptime := t.upCount
    Downtime := t.downCount
    Degraded := t.degradedCount
    UptimePercent := uptimePercent
    AverageLatency := avgLatency
    Timestamp := now
    Results := results }

/-- The observable part of an HTTP response as used by `CheckDomain`:
status code, content length, and (when the connection was TLS and at least
one peer certificate was presented) the leaf certificate expiry string and
days-left value. -/
structure HttpResponse where
  statusCode : Int
  contentLength : Int
  tlsCert : Option (String × Int)
deriving Repr, DecidableEq

deriving instance DecidableEq for Except

/-- External environment of one iteration of the `CheckDomain` retry loop:
every effectful observation the code makes during that attempt.
`rlErr` is the error from `RateLimiter.Wait` (cancellation or deadline),
`nowTs`/`nowStr` the clock readings taken when the attempt result is
created, `reqErr` the error from `http.NewRequestWithContext`, `doResult`
the outcome of `client.Do` (transport error message or a response),
`elapsedMs` the measured wall time of `client.Do` in milliseconds, and
`ctxDone` whether `ctx.Done()` fires during the backoff `select` that
follows this attempt when the loop decides to retry. -/
structure AttemptEnv where
  rlErr : Option String := none
  nowTs : Int := 0
  nowStr : String := ""
  reqErr : Option String := none
  doResult : Except String HttpResponse := Except.error ""
  elapsedMs : Int := 0
  ctxDone : Bool := false
deriving Repr, DecidableEq

/-- Outcome of one iteration of the `CheckDomain` loop: either the function
returns `r` now, or it sets `lastResult := r`, sleeps the backoff, and
continues with the next attempt. -/
inductive StepOut where
  | ret (r : HealthCheckResult)
  | cont (r : HealthCheckResult)
deriving Repr, DecidableEq

/-- The fresh per-attempt result of `CheckDomain` (source lines 243–256):
domain and raw URL, time stamps, then URL normalization (prepend `https://`
when no scheme prefix is present) and the SSL flag. -/
def baseResult (domain : String) (e : AttemptEnv) : HealthCheckResult :=
  let result : HealthCheckResult :=
    { Domain := domain, URL := domain, Timestamp := e.nowTs, CheckedAt := e.nowStr }
  let hasScheme := domain.startsWith "http://" || domain.startsWith "https://"
  let checkURL := if hasScheme then domain else "https://" ++ domain
  let result := if hasScheme then result else { result with URL := checkURL }
  { result with IsSSL := checkURL.startsWith "https://" }

/-- The request-creation-failure branch of the loop body (source lines
258–280): mark the result Down, return it when the error is not retryable or
this was the last attempt, otherwise back off (interruptibly) and retry. -/
def reqErrStep (msg : String) (base : HealthCheckResult) (ctxDone : Bool)
    (attempt maxRetries : Nat) : StepOut :=
  let result :=
    { base with
        Status := StatusDown
        ErrorMessage := "Failed to create request: " ++ msg }
  if !IsRetryableError (some msg) 0 || attempt == maxRetries then
    StepOut.ret result
  else if ctxDone then
    StepOut.ret { result with ErrorMessage := "Context cancelled during retry" }
  else
    StepOut.cont result

/-- The transport-failure branch of the loop body (source lines 289–314):
mark the result Down, return it when the error is not retryable or this was
the last attempt, otherwise back off (interruptibly) and retry. -/
def doErrStep (msg : String) (result : HealthCheckResult) (ctxDone : Bool)
    (attempt maxRetries : Nat) : StepOut :=
  let result :=
    { result with
        Status := StatusDown
        ErrorMessage := "Request failed: " ++ msg }
  if !IsRetryableError (some msg) 0 then
    StepOut.ret result
  else if attempt == maxRetries then
    StepOut.ret result
  else if ctxDone then
    StepOut.ret { result with ErrorMessage := "Context cancelled during retry" }
  else
    StepOut.cont result

/-- The response branch of the loop body (source lines 315–358): record
status code, content length and certificate data, classify via
`determineStatus`, return immediately on Up or a non-retryable status code
or on the last attempt (the Go `break` with `lastResult = result`),
otherwise back off (interruptibly) and retry. -/
def respStep (resp : HttpResponse) (result : HealthCheckResult) (ctxDone : Bool)
    (attempt maxRetries : Nat) : StepOut :=
  let result :=
    { result with StatusCode := resp.statusCode, ContentLength := resp.contentLength }
  let result :=
    match resp.tlsCert with
    | some cert =>
      if result.IsSSL then
        { result with SSLExpiry := cert.1, SSLDaysLeft := cert.2 }
      else
        result
    | none => result
  let result :=
    { result with Status := determineStatus resp.statusCode result.ResponseTime }
  if result.Status == StatusUp then
    StepOut.ret result
  else if !IsRetryableError none resp.statusCode then
    StepOut.ret result
  else if attempt == maxRetries then
    StepOut.ret result
  else if ctxDone then
    StepOut.ret { result with ErrorMessage := "Context cancelled during retry" }
  else
    StepOut.cont result

/-- One iteration of the retry loop inside `CheckDomain` (source lines
231–358), as a function of the attempt environment: rate-limiter wait,
fresh result with URL normalization, then the request-creation, transport
and response branches. -/
def attemptStep (domain : String) (e : AttemptEnv) (attempt maxRetries : Nat) :
    StepOut :=
  match e.rlErr with
  | some msg =>
    StepOut.ret
      { Domain := domain
        URL := domain
        Status := StatusDown
        ErrorMessage := "Rate limiter error: " ++ msg
        Timestamp := e.nowTs
        CheckedAt := e.nowStr }
  | none =>
    match e.reqErr with
    | some msg => reqErrStep msg (baseResult domain e) e.ctxDone attempt maxRetries
    | none =>
      let result := { baseResult domain e with ResponseTime := e.elapsedMs }
      match e.doResult with
      | Except.error msg => doErrStep msg result e.ctxDone attempt maxRetries
      | Except.ok resp => respStep resp result e.ctxDone attempt maxRetries

/-- The retry loop of `CheckDomain`, driven by per-attempt environments.
`fuel` is the number of loop iterations still permitted (`maxRetries + 1`
at entry); the returned `Nat` counts the attempts actually performed. -/
def checkDomainLoop (domain : String) (maxRetries : Nat) (env : Nat → AttemptEnv) :
    Nat → Nat → HealthCheckResult → HealthCheckResult × Nat
  | 0, _, lastResult => (lastResult, 0)
  | fuel + 1, attempt, _ =>
    match attemptStep domain (env attempt) attempt maxRetries with
    | StepOut.ret r => (r, 1)
    | StepOut.cont r =>
      let p := checkDomainLoop domain maxRetries env fuel (attempt + 1) r
      (p.1, p.2 + 1)

/-- `CheckDomain` from the source, with the default retry configuration
(the code always uses `DefaultRetryConfig()`), together with the number of
probe attempts performed.  The environment function supplies the effectful
observations of each attempt. -/
def CheckDomain (domain : String) (env : Nat → AttemptEnv) :
    HealthCheckResult × Nat :=
  checkDomainLoop domain DefaultRetryConfig.MaxRetries env
    (DefaultRetryConfig.MaxRetries + 1) 0 {}

/-- Does the attempt environment report a retryable situation, exactly as
`CheckDomain` consults `IsRetryableError` on that attempt. -/
def attemptRetryable (e : AttemptEnv) : Bool :=
  match e.rlErr with
  | some _ => false
  | none =>
    match e.reqErr with
    | some msg => IsRetryableError (some msg) 0
    | none =>
      match e.doResult with
      | Except.error msg => IsRetryableError (some msg) 0
      | Except.ok resp => IsRetryableError none resp.statusCode

/-- Did this attempt fail with an error (rate limiter, request creation, or
transport), as opposed to receiving an HTTP response. -/
def attemptErrored (e : AttemptEnv) : Bool :=
  e.rlErr.isSome || e.reqErr.isSome ||
    (match e.doResult with
     | Except.error _ => true
     | Except.ok _ => false)

/-! ## Basic facts about the pure policy functions -/

lemma two_pow_gt_30_iff (n : Nat) : (30 : Nat) < 2 ^ n ↔ 5 ≤ n := by
  constructor
  · intro h
    by_contra hlt
    push_neg at hlt
    interval_cases n <;> omega
  · intro h
    calc (30 : Nat) < 2 ^ 5 := by norm_num
      _ ≤ 2 ^ n := Nat.pow_le_pow_right (by norm_num) h

/-- C2: determineStatus maps 2xx fast responses to Up, 2xx slow responses
(≥ 3000 ms) to Degraded, 3xx to Up, 4xx to Degraded, and everything else
(5xx, 0, and any other code) to Down. -/
theorem determineStatus_classification (code t : Int) :
    (200 ≤ code → code < 300 → t < 3000 → determineStatus code t = StatusUp) ∧
    (200 ≤ code → code < 300 → 3000 ≤ t → determineStatus code t = StatusDegraded) ∧
    (300 ≤ code → code < 400 → determineStatus code t = StatusUp) ∧
    (400 ≤ code → code < 500 → determineStatus code t = StatusDegraded) ∧
    (code < 200 ∨ 500 ≤ code → determineStatus code t = StatusDown) := by
  refine ⟨?_, ?_, ?_, ?_, ?_⟩ <;> intros <;>
    simp only [determineStatus, ThresholdAccept] <;> split_ifs <;>
    first
      | rfl
      | omega

/-- C2 witness: the classification evaluated at the concrete sample points
of the specification. -/
theorem determineStatus_classification_witness :
    ((200 : Int) ≤ 200 ∧ (200 : Int) < 300 ∧ (500 : Int) < 3000 ∧
      determineStatus 200 500 = StatusUp) ∧
    ((3000 : Int) ≤ 3500 ∧ determineStatus 200 3500 = StatusDegraded) ∧
    ((400 : Int) ≤ 404 ∧ (404 : Int) < 500 ∧ determineStatus 404 1 = StatusDegraded) ∧
    ((500 : Int) ≤ 503 ∧ determineStatus 503 1 = StatusDown) ∧
    ((0 : Int) < 200 ∧ determineStatus 0 1 = StatusDown) :=
  ⟨⟨by norm_num, by norm_num, by norm_num,
      (determineStatus_classification 200 500).1 (by norm_num) (by norm_num) (by norm_num)⟩,
    ⟨by norm_num,
      (determineStatus_classification 200 3500).2.1 (by norm_num) (by norm_num) (by norm_num)⟩,
    ⟨by norm_num, by norm_num,
      (determineStatus_classification 404 1).2.2.2.1 (by norm_num) (by norm_num)⟩,
    ⟨by norm_num,
      (determineStatus_classification 503 1).2.2.2.2 (Or.inr (by norm_num))⟩,
    ⟨by norm_num,
      (determineStatus_classification 0 1).2.2.2.2 (Or.inl (by norm_num))⟩⟩

/-- C10: outside the 2xx range the classification does not depend on the
response time; in particular every 3xx is Up and every 4xx is Degraded no
matter how slow the response was. -/
theorem determineStatus_latency_independent_outside_2xx (code t1 t2 : Int) :
    (code < 200 ∨ 300 ≤ code → determineStatus code t1 = determineStatus code t2) ∧
    (300 ≤ code → code < 400 → determineStatus code t1 = StatusUp) ∧
    (400 ≤ code → code < 500 → determineStatus code t1 = StatusDegraded) := by
  refine ⟨?_, ?_, ?_⟩ <;> intros <;>
    simp only [determineStatus, ThresholdAccept] <;> split_ifs <;>
    first
      | rfl
      | omega

/-- C10 witness: a slow and a fast 301 response classify identically. -/
theorem determineStatus_latency_independent_witness :
    ((301 : Int) < 200 ∨ (300 : Int) ≤ 301) ∧
    determineStatus 301 999999 = determineStatus 301 1 :=
  ⟨Or.inr (by norm_num),
    (determineStatus_latency_independent_outside_2xx 301 999999 1).1
      (Or.inr (by norm_num))⟩

/-- C3: with a transport error present, retryability depends only on the
message (false exactly when it indicates a non-transient condition: a
malformed payload, matched by the substrings "marshal" and "invalid", or an
explicit cancellation, matched by "context cancelled") and not on the status
code; with no error, retryability holds exactly for the status codes 429,
500, 502, 503, 504. -/
theorem IsRetryableError_classification (msg : String) (code : Int) :
    (IsRetryableError (some msg) code =
      !(goContains msg "marshal" || goContains msg "invalid" ||
        goContains msg "context cancelled")) ∧
    (∀ other : Int, IsRetryableError (some msg) code = IsRetryableError (some msg) other) ∧
    (IsRetryableError none code = true ↔
      code = 429 ∨ code = 500 ∨ code = 502 ∨ code = 503 ∨ code = 504) := by
  refine ⟨?_, fun other => rfl, ?_⟩
  · simp only [IsRetryableError]
    split_ifs with h <;> simp [h]
  · simp only [IsRetryableError]
    split_ifs with h <;> simp [h]

/-- C3 witness: a connection-refused transport error is retryable under any
status code, 429 is retryable without an error, 404 is not. -/
theorem IsRetryableError_classification_witness :
    IsRetryableError (some "connection refused") 404 =
      !(goContains "connection refused" "marshal" ||
        goContains "connection refused" "invalid" ||
        goContains "connection refused" "context cancelled") ∧
    (IsRetryableError none 429 = true ↔
      (429 : Int) = 429 ∨ (429 : Int) = 500 ∨ (429 : Int) = 502 ∨
      (429 : Int) = 503 ∨ (429 : Int) = 504) ∧
    (IsRetryableError none 404 = true ↔
      (404 : Int) = 429 ∨ (404 : Int) = 500 ∨ (404 : Int) = 502 ∨
      (404 : Int) = 503 ∨ (404 : Int) = 504) :=
  ⟨(IsRetryableError_classification "connection refused" 404).1,
    (IsRetryableError_classification "" 429).2.2,
    (IsRetryableError_classification "" 404).2.2⟩

/-- C4: with the default configuration the backoff for attempt `n` is
`min (1 s × 2^n) (30 s)` (in nanoseconds); attempts 0, 1, 2 give 1 s, 2 s,
4 s, and attempt 10 gives 30 s rather than 1024 s. -/
theorem CalculateBackoff_default_min (n : Nat) :
    DefaultRetryConfig.CalculateBackoff n =
      min ((1000000000 : Int) * 2 ^ n) 30000000000 ∧
    DefaultRetryConfig.CalculateBackoff 0 = 1000000000 ∧
    DefaultRetryConfig.CalculateBackoff 1 = 2000000000 ∧
    DefaultRetryConfig.CalculateBackoff 2 = 4000000000 ∧
    DefaultRetryConfig.CalculateBackoff 10 = 30000000000 := by
  have key : ∀ m : Nat, DefaultRetryConfig.CalculateBackoff m =
      min ((1000000000 : Int) * 2 ^ m) 30000000000 := by
    intro m
    simp only [RetryConfig.CalculateBackoff, DefaultRetryConfig, InitialBackoff,
      MaxBackoff, BackoffMultiplier]
    have hcond : ((30000000000 : Nat) : ℚ) < ((1000000000 : Nat) : ℚ) * 2 ^ m ↔
        (30 : Nat) < 2 ^ m := by
      push_cast
      constructor
      · intro h
        by_contra hle
        push_neg at hle
        have : ((2 : ℚ) ^ m) ≤ 30 := by
          have := (Nat.cast_le (α := ℚ)).mpr hle
          push_cast at this
          linarith
        nlinarith
      · intro h
        have : (30 : ℚ) < 2 ^ m := by
          have := (Nat.cast_lt (α := ℚ)).mpr h
          push_cast at this
          linarith
        nlinarith
    by_cases h : (30 : Nat) < 2 ^ m
    · rw [if_pos (hcond.mpr h)]
      have h5 : 5 ≤ m := (two_pow_gt_30_iff m).mp h
      have h32 : (32 : Int) ≤ 2 ^ m := by
        calc (32 : Int) = 2 ^ 5 := by norm_num
          _ ≤ 2 ^ m := pow_le_pow_right₀ (by norm_num) h5
      have : (30000000000 : Int) ≤ 1000000000 * 2 ^ m := by nlinarith
      omega
    · rw [if_neg (fun hc => h (hcond.mp hc))]
      push_neg at h
      have hle : (2 : Int) ^ m ≤ 30 := by
        have := (Nat.cast_le (α := Int)).mpr h
        push_cast at this
        linarith
      have hmin : (1000000000 : Int) * 2 ^ m ≤ 30000000000 := by nlinarith
      have hfloor : (((1000000000 : Nat) : ℚ) * 2 ^ m) = (((1000000000 : Int) * 2 ^ m : Int) : ℚ) := by
        push_cast
        ring
      rw [hfloor, Int.floor_intCast]
      omega
  refine ⟨key n, ?_, ?_, ?_, ?_⟩ <;> rw [key] <;> norm_num

/-! ## Report aggregation -/

lemma reportTotals_latency (results : List HealthCheckResult) :
    (reportTotals results).totalLatency = (results.map fun r => r.ResponseTime).sum := by
  induction results with
  | nil => rfl
  | cons r rest ih =>
    simp only [reportTotals, List.map_cons, List.sum_cons, ih]
    omega

lemma reportTotals_counts (results : List HealthCheckResult)
    (h : ∀ r ∈ results,
      r.Status = StatusUp ∨ r.Status = StatusDown ∨ r.Status = StatusDegraded) :
    (reportTotals results).upCount + (reportTotals results).downCount +
      (reportTotals results).degradedCount = results.length := by
  induction results with
  | nil => rfl
  | cons r rest ih =>
    have hr := h r (List.mem_cons_self r rest)
    have hrest := ih fun x hx => h x (List.mem_cons_of_mem r hx)
    simp only [reportTotals, List.length_cons]
    rcases hr with h1 | h1 | h1 <;>
      simp only [h1, StatusUp, StatusDown, StatusDegraded, beq_iff_eq,
        if_pos rfl, String.reduceEq, if_neg, reduceIte] <;>
      omega

/-- C1: for result lists whose statuses all lie in {up, down, degraded}, the
report satisfies TotalChecks = length = Uptime + Downtime + Degraded, the
uptime percentage is 0 for an empty list and 100 × Uptime / TotalChecks
otherwise, and the average latency is the arithmetic mean of all response
times, failed results included. -/
theorem generateReport_invariants (environment : String) (now : Int)
    (results : List HealthCheckResult)
    (h : ∀ r ∈ results,
      r.Status = StatusUp ∨ r.Status = StatusDown ∨ r.Status = StatusDegraded) :
    (generateReport environment now results).TotalChecks = results.length ∧
    (generateReport environment now results).Uptime +
      (generateReport environment now results).Downtime +
      (generateReport environment now results).Degraded =
      (generateReport environment now results).TotalChecks ∧
    (results.length = 0 → (generateReport environment now results).UptimePercent = 0) ∧
    (results.length ≠ 0 →
      (generateReport environment now results).UptimePercent =
        100 * ((generateReport environment now results).Uptime : ℚ) /
          ((generateReport environment now results).TotalChecks : ℚ)) ∧
    (results.length ≠ 0 →
      (generateReport environment now results).AverageLatency =
        (((results.map fun r => r.ResponseTime).sum : Int) : ℚ) / (results.length : ℚ)) := by
  refine ⟨rfl, ?_, ?_, ?_, ?_⟩
  · simpa [generateReport] using reportTotals_counts results h
  · intro hlen
    simp [generateReport, hlen]
  · intro hlen
    have hpos : 0 < results.length := Nat.pos_of_ne_zero hlen
    simp only [generateReport, if_pos hpos]
    ring
  · intro hlen
    have hpos : 0 < results.length := Nat.pos_of_ne_zero hlen
    simp only [generateReport, if_pos hpos, reportTotals_latency]

/-- Sample input for the C1 witness: one result of each status. -/
def c1SampleResults : List HealthCheckResult :=
  [{ Status := "up", ResponseTime := 100 },
    { Status := "down", ResponseTime := 200 },
    { Status := "degraded", ResponseTime := 330 }]

/-- C1 witness: the invariants instantiated on a three-element result list
containing one result of each status. -/
theorem generateReport_invariants_witness :
    (∀ r ∈ c1SampleResults,
      r.Status = StatusUp ∨ r.Status = StatusDown ∨ r.Status = StatusDegraded) ∧
    ((generateReport "production" 0 c1SampleResults).TotalChecks =
        c1SampleResults.length ∧
      (generateReport "production" 0 c1SampleResults).Uptime +
        (generateReport "production" 0 c1SampleResults).Downtime +
        (generateReport "production" 0 c1SampleResults).Degraded =
        (generateReport "production" 0 c1SampleResults).TotalChecks ∧
      (c1SampleResults.length = 0 →
        (generateReport "production" 0 c1SampleResults).UptimePercent = 0) ∧
      (c1SampleResults.length ≠ 0 →
        (generateReport "production" 0 c1SampleResults).UptimePercent =
          100 * ((generateReport "production" 0 c1SampleResults).Uptime : ℚ) /
            ((generateReport "production" 0 c1SampleResults).TotalChecks : ℚ)) ∧
      (c1SampleResults.length ≠ 0 →
        (generateReport "production" 0 c1SampleResults).AverageLatency =
          (((c1SampleResults.map fun r => r.ResponseTime).sum : Int) : ℚ) /
            (c1SampleResults.length : ℚ))) :=
  ⟨by decide, generateReport_invariants "production" 0 c1SampleResults (by decide)⟩

/-! ## Facts about single attempts of the CheckDomain loop -/

lemma determineStatus_cases (c t : Int) :
    determineStatus c t = StatusUp ∨ determineStatus c t = StatusDown ∨
      determineStatus c t = StatusDegraded := by
  unfold determineStatus
  split_ifs <;> simp

lemma string_append_ne_empty (pre msg : String) (hp : pre.length ≠ 0) :
    pre ++ msg ≠ "" := by
  intro hc
  have := congrArg String.length hc
  simp only [String.length_append] at this
  have hz : String.length "" = 0 := rfl
  omega

lemma attemptStep_rlErr (domain : String) (e : AttemptEnv) (attempt maxRetries : Nat)
    (msg : String) (h : e.rlErr = some msg) :
    attemptStep domain e attempt maxRetries =
      StepOut.ret
        { Domain := domain
          URL := domain
          Status := StatusDown
          ErrorMessage := "Rate limiter error: " ++ msg
          Timestamp := e.nowTs
          CheckedAt := e.nowStr } := by
  simp only [attemptStep, h]

lemma reqErrStep_ret (msg : String) (base : HealthCheckResult) (cd : Bool)
    (attempt maxRetries : Nat) (r : HealthCheckResult)
    (h : reqErrStep msg base cd attempt maxRetries = StepOut.ret r) :
    r.Status = StatusDown ∧
      (r.ErrorMessage = "Failed to create request: " ++ msg ∨
        r.ErrorMessage = "Context cancelled during retry") := by
  unfold reqErrStep at h
  split_ifs at h <;> injection h with h <;> subst h <;> exact ⟨rfl, by simp⟩

lemma reqErrStep_cont (msg : String) (base : HealthCheckResult) (cd : Bool)
    (attempt maxRetries : Nat) (r : HealthCheckResult)
    (h : reqErrStep msg base cd attempt maxRetries = StepOut.cont r) :
    attempt ≠ maxRetries ∧ cd = false ∧ IsRetryableError (some msg) 0 = true ∧
      r = { base with
              Status := StatusDown
              ErrorMessage := "Failed to create request: " ++ msg } := by
  unfold reqErrStep at h
  split_ifs at h with h1 h2 <;> injection h with h
  subst h
  simp only [Bool.not_eq_true, Bool.or_eq_false_iff, Bool.not_eq_eq_eq_not,
    Bool.not_false, beq_eq_false_iff_ne, Bool.not_eq_false'] at h1
  simp only [Bool.not_eq_true] at h2
  exact ⟨h1.2, h2, h1.1, rfl⟩


lemma doErrStep_ret (msg : String) (base : HealthCheckResult) (cd : Bool)
    (attempt maxRetries : Nat) (r : HealthCheckResult)
    (h : doErrStep msg base cd attempt maxRetries = StepOut.ret r) :
    r.Status = StatusDown ∧
      (r.ErrorMessage = "Request failed: " ++ msg ∨
        r.ErrorMessage = "Context cancelled during retry") := by
  unfold doErrStep at h
  split_ifs at h <;> injection h with h <;> subst h <;> exact ⟨rfl, by simp⟩

lemma doErrStep_cont (msg : String) (base : HealthCheckResult) (cd : Bool)
    (attempt maxRetries : Nat) (r : HealthCheckResult)
    (h : doErrStep msg base cd attempt maxRetries = StepOut.cont r) :
    attempt ≠ maxRetries ∧ cd = false ∧ IsRetryableError (some msg) 0 = true ∧
      r = { base with
              Status := StatusDown
              ErrorMessage := "Request failed: " ++ msg } := by
  unfold doErrStep at h
  split_ifs at h with h1 h2 h3 <;> injection h with h
  subst h
  simp only [Bool.not_eq_true, Bool.not_eq_false'] at h1
  simp only [Bool.not_eq_true, beq_eq_false_iff_ne] at h2
  simp only [Bool.not_eq_true] at h3
  exact ⟨h2, h3, h1, rfl⟩

lemma respStep_ret (resp : HttpResponse) (base : HealthCheckResult) (cd : Bool)
    (attempt maxRetries : Nat) (r : HealthCheckResult)
    (h : respStep resp base cd attempt maxRetries = StepOut.ret r) :
    r.Status = determineStatus resp.statusCode base.ResponseTime ∧
      r.StatusCode = resp.statusCode ∧
      (r.ErrorMessage = base.ErrorMessage ∨
        (r.ErrorMessage = "Context cancelled during retry" ∧
          IsRetryableError none resp.statusCode = true ∧ r.Status ≠ StatusUp)) := by
  obtain ⟨code, clen, tls⟩ := resp
  unfold respStep at h
  cases tls with
  | none =>
    dsimp only at h
    split_ifs at h with h1 h2 h3 h4 <;> injection h with h <;> subst h
    · exact ⟨rfl, rfl, Or.inl rfl⟩
    · exact ⟨rfl, rfl, Or.inl rfl⟩
    · exact ⟨rfl, rfl, Or.inl rfl⟩
    · simp only [Bool.not_eq_true, beq_eq_false_iff_ne] at h1
      simp only [Bool.not_eq_true, Bool.not_eq_false'] at h2
      exact ⟨rfl, rfl, Or.inr ⟨rfl, h2, h1⟩⟩
  | some cert =>
    dsimp only at h
    split_ifs at h with hssl h1 h2 h3 h4 g1 g2 g3 g4 <;> injection h with h <;> subst h
    · exact ⟨rfl, rfl, Or.inl rfl⟩
    · exact ⟨rfl, rfl, Or.inl rfl⟩
    · exact ⟨rfl, rfl, Or.inl rfl⟩
    · simp only [Bool.not_eq_true, beq_eq_false_iff_ne] at h1
      simp only [Bool.not_eq_true, Bool.not_eq_false'] at h2
      exact ⟨rfl, rfl, Or.inr ⟨rfl, h2, h1⟩⟩
    · exact ⟨rfl, rfl, Or.inl rfl⟩
    · exact ⟨rfl, rfl, Or.inl rfl⟩
    · exact ⟨rfl, rfl, Or.inl rfl⟩
    · simp only [Bool.not_eq_true, beq_eq_false_iff_ne] at g1
      simp only [Bool.not_eq_true, Bool.not_eq_false'] at g2
      exact ⟨rfl, rfl, Or.inr ⟨rfl, g2, g1⟩⟩

lemma respStep_cont (resp : HttpResponse) (base : HealthCheckResult) (cd : Bool)
    (attempt maxRetries : Nat) (r : HealthCheckResult)
    (h : respStep resp base cd attempt maxRetries = StepOut.cont r) :
    attempt ≠ maxRetries ∧ cd = false ∧
      IsRetryableError none resp.statusCode = true ∧
      r.Status = determineStatus resp.statusCode base.ResponseTime ∧
      r.Status ≠ StatusUp ∧ r.StatusCode = resp.statusCode := by
  obtain ⟨code, clen, tls⟩ := resp
  unfold respStep at h
  cases tls with
  | none =>
    dsimp only at h
    split_ifs at h with h1 h2 h3 h4 <;> injection h with h
    subst h
    simp only [Bool.not_eq_true, beq_eq_false_iff_ne] at h1 h3
    simp only [Bool.not_eq_true, Bool.not_eq_false'] at h2
    simp only [Bool.not_eq_true] at h4
    exact ⟨h3, h4, h2, rfl, h1, rfl⟩
  | some cert =>
    dsimp only at h
    split_ifs at h with hssl h1 h2 h3 h4 g1 g2 g3 g4 <;> injection h with h <;> subst h
    · simp only [Bool.not_eq_true, beq_eq_false_iff_ne] at h1 h3
      simp only [Bool.not_eq_true, Bool.not_eq_false'] at h2
      simp only [Bool.not_eq_true] at h4
      exact ⟨h3, h4, h2, rfl, h1, rfl⟩
    · simp only [Bool.not_eq_true, beq_eq_false_iff_ne] at g1 g3
      simp only [Bool.not_eq_true, Bool.not_eq_false'] at g2
      simp only [Bool.not_eq_true] at g4
      exact ⟨g3, g4, g2, rfl, g1, rfl⟩

lemma baseResult_fields (domain : String) (e : AttemptEnv) :
    (baseResult domain e).ErrorMessage = "" ∧ (baseResult domain e).Status = "" ∧
      (baseResult domain e).StatusCode = 0 ∧ (baseResult domain e).ResponseTime = 0 ∧
      (baseResult domain e).Domain = domain ∧
      (baseResult domain e).Timestamp = e.nowTs ∧
      (baseResult domain e).CheckedAt = e.nowStr := by
  unfold baseResult
  by_cases hs : (domain.startsWith "http://" || domain.startsWith "https://") = true
  · simp [hs]
  · simp [hs]

lemma updatedBase_err (domain : String) (e : AttemptEnv) (v : Int) :
    ({ baseResult domain e with ResponseTime := v } : HealthCheckResult).ErrorMessage =
      "" := by
  unfold baseResult
  by_cases hs : (domain.startsWith "http://" || domain.startsWith "https://") = true
  · simp [hs]
  · simp [hs]

lemma determineStatus_429 (t : Int) : determineStatus 429 t = StatusDegraded := by
  unfold determineStatus
  norm_num

lemma determineStatus_5xx (code t : Int) (h5 : 500 ≤ code) :
    determineStatus code t = StatusDown := by
  unfold determineStatus
  split_ifs <;> first
    | rfl
    | omega

lemma retryable_codes (code : Int) (h : IsRetryableError none code = true) :
    code = 429 ∨ code = 500 ∨ code = 502 ∨ code = 503 ∨ code = 504 := by
  unfold IsRetryableError at h
  split_ifs at h with hc
  exact hc

lemma attemptStep_rl_ret (domain : String) (e : AttemptEnv) (attempt maxRetries : Nat)
    (msg : String) (r : HealthCheckResult) (hrl : e.rlErr = some msg)
    (h : attemptStep domain e attempt maxRetries = StepOut.ret r) :
    r.Status = StatusDown ∧ r.ErrorMessage = "Rate limiter error: " ++ msg := by
  rw [attemptStep_rlErr domain e attempt maxRetries msg hrl] at h
  injection h with h
  subst h
  exact ⟨rfl, rfl⟩

lemma attemptStep_doError_ret (domain : String) (e : AttemptEnv) (attempt maxRetries : Nat)
    (msg : String) (r : HealthCheckResult)
    (hrl : e.rlErr = none) (hreq : e.reqErr = none) (hdo : e.doResult = Except.error msg)
    (h : attemptStep domain e attempt maxRetries = StepOut.ret r) :
    r.Status = StatusDown ∧
      (r.ErrorMessage = "Request failed: " ++ msg ∨
        r.ErrorMessage = "Context cancelled during retry") := by
  obtain ⟨rl, ts, ns, req, doR, el, cd⟩ := e
  dsimp only at hrl hreq hdo
  subst hrl
  subst hreq
  subst hdo
  unfold attemptStep at h
  dsimp only at h
  exact doErrStep_ret _ _ _ _ _ _ h

lemma attemptStep_cancelMsg (domain : String) (e : AttemptEnv) (attempt maxRetries : Nat)
    (r : HealthCheckResult)
    (h : attemptStep domain e attempt maxRetries = StepOut.ret r)
    (hmsg : r.ErrorMessage = "Context cancelled during retry") :
    r.Status = StatusDown ∨ (r.Status = StatusDegraded ∧ r.StatusCode = 429) := by
  obtain ⟨rl, ts, ns, req, doR, el, cd⟩ := e
  unfold attemptStep at h
  dsimp only at h
  cases rl with
  | some m =>
    injection h with h
    subst h
    exact Or.inl rfl
  | none =>
    cases req with
    | some m => exact Or.inl (reqErrStep_ret _ _ _ _ _ _ h).1
    | none =>
      cases doR with
      | error m => exact Or.inl (doErrStep_ret _ _ _ _ _ _ h).1
      | ok resp =>
        obtain ⟨hstat, hcode, hdisj⟩ := respStep_ret _ _ _ _ _ _ h
        rcases hdisj with hbase | ⟨_, hretry, _⟩
        · rw [updatedBase_err] at hbase
          rw [hmsg] at hbase
          exact absurd hbase (by decide)
        · rcases retryable_codes resp.statusCode hretry with hc | hc | hc | hc | hc <;>
            rw [hc] at hstat hcode
          · exact Or.inr ⟨by rw [hstat, determineStatus_429], hcode⟩
          · exact Or.inl (by rw [hstat]; exact determineStatus_5xx _ _ (by norm_num))
          · exact Or.inl (by rw [hstat]; exact determineStatus_5xx _ _ (by norm_num))
          · exact Or.inl (by rw [hstat]; exact determineStatus_5xx _ _ (by norm_num))
          · exact Or.inl (by rw [hstat]; exact determineStatus_5xx _ _ (by norm_num))

lemma attemptStep_cont_facts (domain : String) (e : AttemptEnv) (attempt maxRetries : Nat)
    (r : HealthCheckResult) (h : attemptStep domain e attempt maxRetries = StepOut.cont r) :
    attempt ≠ maxRetries ∧ e.ctxDone = false ∧ r.Status ≠ StatusUp ∧
      attemptRetryable e = true := by
  obtain ⟨rl, ts, ns, req, doR, el, cd⟩ := e
  unfold attemptStep at h
  unfold attemptRetryable
  dsimp only at h ⊢
  cases rl with
  | some msg => simp at h
  | none =>
    cases req with
    | some msg =>
      obtain ⟨hm, hcd, hretry, hr⟩ := reqErrStep_cont _ _ _ _ _ _ h
      subst hr
      exact ⟨hm, hcd, by simp [StatusDown, StatusUp], hretry⟩
    | none =>
      cases doR with
      | error msg =>
        obtain ⟨hm, hcd, hretry, hr⟩ := doErrStep_cont _ _ _ _ _ _ h
        subst hr
        exact ⟨hm, hcd, by simp [StatusDown, StatusUp], hretry⟩
      | ok resp =>
        obtain ⟨hm, hcd, hretry, _, hup, _⟩ := respStep_cont _ _ _ _ _ _ h
        exact ⟨hm, hcd, hup, hretry⟩

lemma attemptStep_ret_status (domain : String) (e : AttemptEnv) (attempt maxRetries : Nat)
    (r : HealthCheckResult) (h : attemptStep domain e attempt maxRetries = StepOut.ret r) :
    r.Status = StatusUp ∨ r.Status = StatusDown ∨ r.Status = StatusDegraded := by
  obtain ⟨rl, ts, ns, req, doR, el, cd⟩ := e
  unfold attemptStep at h
  dsimp only at h
  cases rl with
  | some msg =>
    injection h with h
    subst h
    exact Or.inr (Or.inl rfl)
  | none =>
    cases req with
    | some msg => exact Or.inr (Or.inl (reqErrStep_ret _ _ _ _ _ _ h).1)
    | none =>
      cases doR with
      | error msg => exact Or.inr (Or.inl (doErrStep_ret _ _ _ _ _ _ h).1)
      | ok resp =>
        have hst := (respStep_ret _ _ _ _ _ _ h).1
        rw [hst]
        exact determineStatus_cases _ _

lemma attemptStep_ret_errored (domain : String) (e : AttemptEnv) (attempt maxRetries : Nat)
    (r : HealthCheckResult) (h : attemptStep domain e attempt maxRetries = StepOut.ret r)
    (herr : attemptErrored e = true) : r.ErrorMessage ≠ "" := by
  obtain ⟨rl, ts, ns, req, doR, el, cd⟩ := e
  unfold attemptStep at h
  dsimp only at h
  cases rl with
  | some msg =>
    injection h with h
    subst h
    exact string_append_ne_empty "Rate limiter error: " msg (by decide)
  | none =>
    cases req with
    | some msg =>
      rcases (reqErrStep_ret _ _ _ _ _ _ h).2 with hmsg | hmsg <;> rw [hmsg]
      · exact string_append_ne_empty "Failed to create request: " msg (by decide)
      · decide
    | none =>
      cases doR with
      | error msg =>
        rcases (doErrStep_ret _ _ _ _ _ _ h).2 with hmsg | hmsg
        · rw [hmsg]
          exact string_append_ne_empty "Request failed: " msg (by decide)
        · rw [hmsg]
          decide
      | ok resp => simp [attemptErrored] at herr

/-! ## The CheckDomain retry loop -/

lemma checkDomainLoop_spec (domain : String) (maxRetries : Nat) (env : Nat → AttemptEnv) :
    ∀ (fuel attempt : Nat) (last : HealthCheckResult),
      1 ≤ fuel → attempt + fuel = maxRetries + 1 →
      1 ≤ (checkDomainLoop domain maxRetries env fuel attempt last).2 ∧
      (checkDomainLoop domain maxRetries env fuel attempt last).2 ≤ fuel ∧
      attemptStep domain
          (env (attempt + (checkDomainLoop domain maxRetries env fuel attempt last).2 - 1))
          (attempt + (checkDomainLoop domain maxRetries env fuel attempt last).2 - 1)
          maxRetries =
        StepOut.ret (checkDomainLoop domain maxRetries env fuel attempt last).1 ∧
      ∀ i, attempt ≤ i →
        i + 1 < attempt + (checkDomainLoop domain maxRetries env fuel attempt last).2 →
        ∃ r, attemptStep domain (env i) i maxRetries = StepOut.cont r := by
  intro fuel
  induction fuel with
  | zero =>
    intro attempt last h1 h2
    exact absurd h1 (by norm_num)
  | succ n ih =>
    intro attempt last h1 h2
    rcases hstep : attemptStep domain (env attempt) attempt maxRetries with r | r
    · simp only [checkDomainLoop, hstep]
      refine ⟨le_refl 1, by omega, ?_, ?_⟩
      · have hidx : attempt + 1 - 1 = attempt := by omega
        rw [hidx]
        exact hstep
      · intro i hi hi2
        exact absurd hi2 (by omega)
    · have hfacts := attemptStep_cont_facts domain (env attempt) attempt maxRetries r hstep
      have hfuel : 1 ≤ n := by
        have hne := hfacts.1
        omega
      have ihr := ih (attempt + 1) r hfuel (by omega)
      simp only [checkDomainLoop, hstep]
      obtain ⟨ih1, ih2, ih3, ih4⟩ := ihr
      refine ⟨by omega, by omega, ?_, ?_⟩
      · have hidx :
            attempt + ((checkDomainLoop domain maxRetries env n (attempt + 1) r).2 + 1) - 1 =
              attempt + 1 + (checkDomainLoop domain maxRetries env n (attempt + 1) r).2 - 1 := by
          omega
        rw [hidx]
        exact ih3
      · intro i hi hi2
        by_cases hie : i = attempt
        · subst hie
          exact ⟨r, hstep⟩
        · exact ih4 i (by omega) (by omega)

/-- C5: for every domain and attempt environment, CheckDomain performs
between 1 and 4 probe attempts; the returned result is the value returned by
the final attempt performed; every earlier attempt continued the loop, and a
loop iteration continues only when its result is not Up, its failure is
retryable and it was not the final permitted attempt; the returned result
always has a populated status, and when the final attempt failed with an
error (rate limiter, request creation or transport) the error message is
set.  The function is total and returns a `HealthCheckResult`, never an
error. -/
theorem CheckDomain_retry_policy (domain : String) (env : Nat → AttemptEnv) :
    1 ≤ (CheckDomain domain env).2 ∧ (CheckDomain domain env).2 ≤ 4 ∧
    attemptStep domain (env ((CheckDomain domain env).2 - 1))
        ((CheckDomain domain env).2 - 1) MaxRetries =
      StepOut.ret (CheckDomain domain env).1 ∧
    (∀ i, i + 1 < (CheckDomain domain env).2 →
      ∃ r, attemptStep domain (env i) i MaxRetries = StepOut.cont r) ∧
    (∀ i r, attemptStep domain (env i) i MaxRetries = StepOut.cont r →
      r.Status ≠ StatusUp ∧ attemptRetryable (env i) = true ∧ i ≠ MaxRetries) ∧
    ((CheckDomain domain env).1.Status = StatusUp ∨
      (CheckDomain domain env).1.Status = StatusDown ∨
      (CheckDomain domain env).1.Status = StatusDegraded) ∧
    (attemptErrored (env ((CheckDomain domain env).2 - 1)) = true →
      (CheckDomain domain env).1.ErrorMessage ≠ "") := by
  have hdef : CheckDomain domain env =
      checkDomainLoop domain MaxRetries env (MaxRetries + 1) 0 {} := rfl
  have hspec := checkDomainLoop_spec domain MaxRetries env (MaxRetries + 1) 0 {}
    (by norm_num) (by omega)
  simp only [Nat.zero_add] at hspec
  obtain ⟨hs1, hs2, hs3, hs4⟩ := hspec
  rw [hdef]
  refine ⟨hs1, ?_, hs3, ?_, ?_, ?_, ?_⟩
  · have h4 : MaxRetries + 1 = 4 := rfl
    omega
  · intro i hi
    exact hs4 i (Nat.zero_le i) (by omega)
  · intro i r hc
    have hfacts := attemptStep_cont_facts domain (env i) i MaxRetries r hc
    exact ⟨hfacts.2.2.1, hfacts.2.2.2, hfacts.1⟩
  · exact attemptStep_ret_status domain _ _ MaxRetries _ hs3
  · exact attemptStep_ret_errored domain _ _ MaxRetries _ hs3

/-- Sample environment for the C5 witness: attempt 0 receives a retryable
503 and attempt 1 a fast 200. -/
def c5Env : Nat → AttemptEnv := fun n =>
  if n = 0 then
    { doResult := Except.ok { statusCode := 503, contentLength := 0, tlsCert := none }
      elapsedMs := 50 }
  else
    { doResult := Except.ok { statusCode := 200, contentLength := 0, tlsCert := none }
      elapsedMs := 60 }

/-- C5 witness: the retry policy instantiated on a concrete environment. -/
theorem CheckDomain_retry_policy_witness :
    1 ≤ (CheckDomain "example.com" c5Env).2 ∧
      (CheckDomain "example.com" c5Env).2 ≤ 4 ∧
      attemptStep "example.com" (c5Env ((CheckDomain "example.com" c5Env).2 - 1))
          ((CheckDomain "example.com" c5Env).2 - 1) MaxRetries =
        StepOut.ret (CheckDomain "example.com" c5Env).1 ∧
      (∀ i, i + 1 < (CheckDomain "example.com" c5Env).2 →
        ∃ r, attemptStep "example.com" (c5Env i) i MaxRetries = StepOut.cont r) ∧
      (∀ i r, attemptStep "example.com" (c5Env i) i MaxRetries = StepOut.cont r →
        r.Status ≠ StatusUp ∧ attemptRetryable (c5Env i) = true ∧ i ≠ MaxRetries) ∧
      ((CheckDomain "example.com" c5Env).1.Status = StatusUp ∨
        (CheckDomain "example.com" c5Env).1.Status = StatusDown ∨
        (CheckDomain "example.com" c5Env).1.Status = StatusDegraded) ∧
      (attemptErrored (c5Env ((CheckDomain "example.com" c5Env).2 - 1)) = true →
        (CheckDomain "example.com" c5Env).1.ErrorMessage ≠ "") :=
  CheckDomain_retry_policy "example.com" c5Env

/-- Environment exhibiting the C7 counterexample: every attempt receives a
retryable 429 response quickly, and the run context is cancelled during the
following backoff sleep. -/
def c7CancelEnv : Nat → AttemptEnv := fun _ =>
  { doResult := Except.ok { statusCode := 429, contentLength := 0, tlsCert := none }
    elapsedMs := 100
    ctxDone := true }

/-- C7 counterexample: when the context is cancelled during the backoff
sleep that follows a 429 response, the final result carries the
cancellation message but its status is Degraded, not Down, refuting the
claim that every such result has status Down. -/
theorem CheckDomain_cancellation_counterexample :
    (c7CancelEnv 0).ctxDone = true ∧
    (CheckDomain "example.com" c7CancelEnv).1.ErrorMessage =
      "Context cancelled during retry" ∧
    (CheckDomain "example.com" c7CancelEnv).1.Status ≠ StatusDown ∧
    (CheckDomain "example.com" c7CancelEnv).1.Status = StatusDegraded ∧
    (CheckDomain "example.com" c7CancelEnv).1.StatusCode = 429 := by
  refine ⟨rfl, rfl, ?_, rfl, rfl⟩
  decide

/-- C7 (amended): whenever the run context is cancelled while the final
attempt awaits the rate limiter, awaits the HTTP response, or sleeps a
retry backoff, the domain still receives a result with a
cancellation/timeout error message, and its status is Down — except that a
cancellation interrupting the backoff that follows a retryable 429 response
leaves the status Degraded (with status code 429). -/
theorem CheckDomain_cancellation_amended (domain : String) (env : Nat → AttemptEnv) :
    (∀ msg, (env ((CheckDomain domain env).2 - 1)).rlErr = some msg →
      (CheckDomain domain env).1.Status = StatusDown ∧
        (CheckDomain domain env).1.ErrorMessage = "Rate limiter error: " ++ msg) ∧
    (∀ msg, (env ((CheckDomain domain env).2 - 1)).rlErr = none →
      (env ((CheckDomain domain env).2 - 1)).reqErr = none →
      (env ((CheckDomain domain env).2 - 1)).doResult = Except.error msg →
      (CheckDomain domain env).1.Status = StatusDown ∧
        ((CheckDomain domain env).1.ErrorMessage = "Request failed: " ++ msg ∨
          (CheckDomain domain env).1.ErrorMessage =
            "Context cancelled during retry")) ∧
    ((CheckDomain domain env).1.ErrorMessage = "Context cancelled during retry" →
      (CheckDomain domain env).1.Status = StatusDown ∨
        ((CheckDomain domain env).1.Status = StatusDegraded ∧
          (CheckDomain domain env).1.StatusCode = 429)) := by
  have hdef : CheckDomain domain env =
      checkDomainLoop domain MaxRetries env (MaxRetries + 1) 0 {} := rfl
  have hspec := checkDomainLoop_spec domain MaxRetries env (MaxRetries + 1) 0 {}
    (by norm_num) (by omega)
  simp only [Nat.zero_add] at hspec
  obtain ⟨hs1, hs2, hs3, hs4⟩ := hspec
  rw [hdef]
  refine ⟨?_, ?_, ?_⟩
  · intro msg hrl
    exact attemptStep_rl_ret domain _ _ MaxRetries msg _ hrl hs3
  · intro msg h1 h2 h3
    exact attemptStep_doError_ret domain _ _ MaxRetries msg _ h1 h2 h3 hs3
  · intro hmsg
    exact attemptStep_cancelMsg domain _ _ MaxRetries _ hs3 hmsg

/-- Environment for the C7 witness: the rate limiter wait fails with a
deadline error on every attempt. -/
def c7wEnv : Nat → AttemptEnv := fun _ =>
  { rlErr := some "context deadline exceeded", nowTs := 1, nowStr := "t1" }

/-- C7 witness: the amended cancellation behaviour instantiated on a
concrete environment whose rate-limiter wait is cancelled. -/
theorem CheckDomain_cancellation_amended_witness :
    (c7wEnv ((CheckDomain "example.com" c7wEnv).2 - 1)).rlErr =
        some "context deadline exceeded" ∧
    (CheckDomain "example.com" c7wEnv).1.Status = StatusDown ∧
    (CheckDomain "example.com" c7wEnv).1.ErrorMessage =
      "Rate limiter error: " ++ "context deadline exceeded" :=
  ⟨rfl,
    ((CheckDomain_cancellation_amended "example.com" c7wEnv).1
      "context deadline exceeded" rfl).1,
    ((CheckDomain_cancellation_amended "example.com" c7wEnv).1
      "context deadline exceeded" rfl).2⟩

/-- C9: when the rate limiter wait fails on the first attempt, CheckDomain
returns immediately after exactly one attempt, and the result has URL equal
to the raw input domain (the https prefix normalization of normal attempts
is skipped), StatusCode 0, ResponseTime 0, IsSSL false, status Down and the
rate-limiter error message; moreover any attempt whose rate-limiter wait
fails returns that same result shape immediately. -/
theorem CheckDomain_rateLimiterFail (domain msg : String) (env : Nat → AttemptEnv)
    (h : (env 0).rlErr = some msg) :
    CheckDomain domain env =
      ({ Domain := domain, URL := domain, Status := StatusDown, StatusCode := 0,
         ResponseTime := 0, IsSSL := false, SSLExpiry := "", SSLDaysLeft := 0,
         ErrorMessage := "Rate limiter error: " ++ msg, ContentLength := 0,
         Timestamp := (env 0).nowTs, CheckedAt := (env 0).nowStr }, 1) ∧
    (∀ i m, (env i).rlErr = some m →
      attemptStep domain (env i) i MaxRetries =
        StepOut.ret
          { Domain := domain, URL := domain, Status := StatusDown, StatusCode := 0,
            ResponseTime := 0, IsSSL := false, SSLExpiry := "", SSLDaysLeft := 0,
            ErrorMessage := "Rate limiter error: " ++ m, ContentLength := 0,
            Timestamp := (env i).nowTs, CheckedAt := (env i).nowStr }) := by
  have hdef : CheckDomain domain env =
      checkDomainLoop domain MaxRetries env (MaxRetries + 1) 0 {} := rfl
  have hspec := checkDomainLoop_spec domain MaxRetries env (MaxRetries + 1) 0 {}
    (by norm_num) (by omega)
  simp only [Nat.zero_add] at hspec
  obtain ⟨hs1, hs2, hs3, hs4⟩ := hspec
  constructor
  · have hn1 : (checkDomainLoop domain MaxRetries env (MaxRetries + 1) 0 {}).2 = 1 := by
      by_contra hne
      obtain ⟨r, hr⟩ := hs4 0 (le_refl 0) (by omega)
      rw [attemptStep_rlErr domain (env 0) 0 MaxRetries msg h] at hr
      simp at hr
    rw [hn1] at hs3
    norm_num at hs3
    rw [attemptStep_rlErr domain (env 0) 0 MaxRetries msg h] at hs3
    injection hs3 with hs3
    rw [hdef]
    have hpair : checkDomainLoop domain MaxRetries env (MaxRetries + 1) 0 {} =
        ((checkDomainLoop domain MaxRetries env (MaxRetries + 1) 0 {}).1,
          (checkDomainLoop domain MaxRetries env (MaxRetries + 1) 0 {}).2) := rfl
    rw [hpair, hn1, ← hs3]
  · intro i m him
    exact attemptStep_rlErr domain (env i) i MaxRetries m him

/-- Environment for the C9 witness: the rate-limiter wait is cancelled. -/
def c9Env : Nat → AttemptEnv := fun _ =>
  { rlErr := some "context canceled", nowTs := 7, nowStr := "2026-01-01T00:00:00Z" }

/-- C9 witness: the rate-limiter-failure behaviour instantiated on a
concrete environment and domain. -/
theorem CheckDomain_rateLimiterFail_witness :
    (c9Env 0).rlErr = some "context canceled" ∧
    CheckDomain "example.com" c9Env =
      ({ Domain := "example.com", URL := "example.com", Status := StatusDown,
         StatusCode := 0, ResponseTime := 0, IsSSL := false, SSLExpiry := "",
         SSLDaysLeft := 0,
         ErrorMessage := "Rate limiter error: " ++ "context canceled",
         ContentLength := 0, Timestamp := (c9Env 0).nowTs,
         CheckedAt := (c9Env 0).nowStr }, 1) :=
  ⟨rfl, (CheckDomain_rateLimiterFail "example.com" "context canceled" c9Env rfl).1⟩

/-! ## RunCheck: slot writes under arbitrary completion order -/

/-- The orchestrator result slots (source line 384: a pre-sized array with
one slot per domain) after the concurrent writes of source line 395 have
executed in the order given by `order`.  Each completing check writes only
its own input position. -/
def writeSlots (compute : Nat → HealthCheckResult) (order : List Nat)
    (slots : List HealthCheckResult) : List HealthCheckResult :=
  order.foldl (fun acc i => acc.set i (compute i)) slots

/-- `RunCheck` from the source: spawn one check per domain, collect each
result into its input-position slot, build the report and return it with a
nil error.  `completionOrder` is the order in which the concurrent checks
complete (a permutation of the domain indices); `env i` is the attempt
environment of the check for the i-th domain. -/
def RunCheck (environment : String) (now : Int) (domains : List String)
    (env : Nat → Nat → AttemptEnv) (completionOrder : List Nat) :
    MonitorReport × Option String :=
  let compute := fun i => (CheckDomain (domains.getD i "") (env i)).1
  let results := writeSlots compute completionOrder
    (List.replicate domains.length {})
  (generateReport environment now results, none)

lemma writeSlots_length (compute : Nat → HealthCheckResult) :
    ∀ (order : List Nat) (slots : List HealthCheckResult),
      (writeSlots compute order slots).length = slots.length := by
  intro order
  induction order with
  | nil =>
    intro slots
    rfl
  | cons a tl ih =>
    intro slots
    show (writeSlots compute tl (slots.set a (compute a))).length = _
    rw [ih, List.length_set]

lemma writeSlots_getElem? (compute : Nat → HealthCheckResult) :
    ∀ (order : List Nat) (slots : List HealthCheckResult) (j : Nat),
      (writeSlots compute order slots)[j]? =
        if j ∈ order ∧ j < slots.length then some (compute j)
        else slots[j]? := by
  intro order
  induction order with
  | nil =>
    intro slots j
    simp [writeSlots]
  | cons a tl ih =>
    intro slots j
    show (writeSlots compute tl (slots.set a (compute a)))[j]? = _
    rw [ih, List.length_set]
    by_cases hlen : j < slots.length
    · by_cases hmem : j ∈ tl
      · simp [hmem, hlen]
      · by_cases haj : a = j
        · subst haj
          simp [hmem, hlen, List.getElem?_set]
        · simp [hmem, hlen, haj, List.getElem?_set, List.mem_cons, Ne.symm haj]
    · have hnone : slots[j]? = none := List.getElem?_eq_none (by omega)
      have hnone2 : (slots.set a (compute a))[j]? = none :=
        List.getElem?_eq_none (by rw [List.length_set]; omega)
      simp [hlen, hnone, hnone2]

lemma writeSlots_perm (compute : Nat → HealthCheckResult) (order : List Nat) (n : Nat)
    (h : order.Perm (List.range n)) :
    writeSlots compute order (List.replicate n ({} : HealthCheckResult)) =
      (List.range n).map compute := by
  apply List.ext_getElem?
  intro j
  rw [writeSlots_getElem?]
  have hmem : j ∈ order ↔ j < n := by rw [h.mem_iff, List.mem_range]
  by_cases hj : j < n
  · simp [hmem, hj]
  · have hnone : (List.replicate n ({} : HealthCheckResult))[j]? = none :=
      List.getElem?_eq_none (by simp only [List.length_replicate]; omega)
    have hnone2 : ((List.range n).map compute)[j]? = none :=
      List.getElem?_eq_none
        (by simp only [List.length_map, List.length_range]; omega)
    simp [hmem, hj, hnone, hnone2]

/-- C6: for every input domain list and every completion order of the
concurrent checks (any permutation of the domain indices), RunCheck returns
a nil error and a report whose Results list is exactly the per-domain
CheckDomain results in input order: one entry per domain, the i-th entry
being the result of the i-th input domain, regardless of completion
order. -/
theorem RunCheck_order_preserved (environment : String) (now : Int)
    (domains : List String) (env : Nat → Nat → AttemptEnv)
    (completionOrder : List Nat)
    (h : completionOrder.Perm (List.range domains.length)) :
    (RunCheck environment now domains env completionOrder).2 = none ∧
    (RunCheck environment now domains env completionOrder).1.Results =
      (List.range domains.length).map
        (fun i => (CheckDomain (domains.getD i "") (env i)).1) ∧
    (RunCheck environment now domains env completionOrder).1.Results.length =
      domains.length := by
  have hres : (RunCheck environment now domains env completionOrder).1.Results =
      writeSlots (fun i => (CheckDomain (domains.getD i "") (env i)).1)
        completionOrder (List.replicate domains.length {}) := rfl
  refine ⟨rfl, ?_, ?_⟩
  · rw [hres, writeSlots_perm _ _ _ h]
  · rw [hres, writeSlots_length]
    simp

/-- Domains for the C6 witness. -/
def c6Domains : List String := ["a.com", "b.com", "c.com"]

/-- Attempt environments for the C6 witness: every check gets a fast 200. -/
def c6Env : Nat → Nat → AttemptEnv := fun _ _ =>
  { doResult := Except.ok { statusCode := 200, contentLength := 0, tlsCert := none }
    elapsedMs := 10 }

/-- C6 witness: order preservation instantiated with three domains whose
checks complete in the order c, a, b. -/
theorem RunCheck_order_preserved_witness :
    ([2, 0, 1] : List Nat).Perm (List.range c6Domains.length) ∧
    ((RunCheck "production" 0 c6Domains c6Env [2, 0, 1]).2 = none ∧
      (RunCheck "production" 0 c6Domains c6Env [2, 0, 1]).1.Results =
        (List.range c6Domains.length).map
          (fun i => (CheckDomain (c6Domains.getD i "") (c6Env i)).1) ∧
      (RunCheck "production" 0 c6Domains c6Env [2, 0, 1]).1.Results.length =
        c6Domains.length) :=
  ⟨by decide,
    by
      have h := RunCheck_order_preserved "production" 0 c6Domains c6Env [2, 0, 1]
        (by decide)
      exact ⟨h.1, h.2.1, h.2.2⟩⟩

/-! ## The orchestrator semaphore -/

/-- One semaphore operation of a check goroutine: `acquire` is the send
into the semaphore channel performed before the check runs, `release` the
deferred receive performed after it finishes. -/
inductive SemOp where
  | acquire
  | release
deriving Repr, DecidableEq

/-- Channel occupancy of the semaphore after executing a trace of
operations starting from `c` held slots: the number of checks currently in
flight. -/
def semCount : Nat → List SemOp → Nat
  | c, [] => c
  | c, SemOp.acquire :: rest => semCount (c + 1) rest
  | c, SemOp.release :: rest => semCount (c - 1) rest

/-- Buffered-channel semantics of the semaphore created at source line 386
with capacity `m.config.Concurrent`: a trace of operations is executable
exactly when every send happens with fewer than `cap` values buffered and
every receive with at least one. -/
def semValid (cap : Nat) : Nat → List SemOp → Bool
  | _, [] => true
  | c, SemOp.acquire :: rest => decide (c < cap) && semValid cap (c + 1) rest
  | c, SemOp.release :: rest => decide (0 < c) && semValid cap (c - 1) rest

lemma semCount_le (cap : Nat) :
    ∀ (trace : List SemOp) (c : Nat), c ≤ cap →
      semValid cap c trace = true → ∀ k, semCount c (trace.take k) ≤ cap := by
  intro trace
  induction trace with
  | nil =>
    intro c hc hv k
    simpa [semCount] using hc
  | cons op rest ih =>
    intro c hc hv k
    cases k with
    | zero => simpa [semCount] using hc
    | succ m =>
      cases op with
      | acquire =>
        simp only [semValid, Bool.and_eq_true, decide_eq_true_eq] at hv
        simp only [List.take_succ_cons, semCount]
        exact ih (c + 1) (by omega) hv.2 m
      | release =>
        simp only [semValid, Bool.and_eq_true, decide_eq_true_eq] at hv
        simp only [List.take_succ_cons, semCount]
        exact ih (c - 1) (by omega) hv.2 m

/-- C8: under the buffered-channel semantics of the orchestrator semaphore,
every executable trace of acquire/release operations keeps the number of
in-flight CheckDomain executions at or below the channel capacity
(`Concurrent`) at every instant, that is, in every prefix of the trace.
The default capacity is `DefaultConcurrent = 5`. -/
theorem RunCheck_concurrency_bound (cap : Nat) (trace : List SemOp)
    (h : semValid cap 0 trace = true) :
    ∀ k, semCount 0 (List.take k trace) ≤ cap :=
  semCount_le cap trace 0 (Nat.zero_le cap) h

/-- Trace for the C8 witness: three goroutines interleaving under the
default capacity. -/
def c8Trace : List SemOp :=
  [SemOp.acquire, SemOp.acquire, SemOp.release, SemOp.acquire,
    SemOp.release, SemOp.release]

/-- C8 witness: the bound instantiated at the default concurrency and a
concrete valid trace. -/
theorem RunCheck_concurrency_bound_witness :
    semValid DefaultConcurrent 0 c8Trace = true ∧
    semCount 0 (List.take 4 c8Trace) ≤ DefaultConcurrent :=
  ⟨by decide,
    RunCheck_concurrency_bound DefaultConcurrent c8Trace (by decide) 4⟩

end Monitor
